import Mathlib

/-!
Verification of the market-breadth dashboard script (dashboard.py).

The script is a single pandas pipeline: download a year of daily closes
for 50 tickers plus the SPY benchmark, drop every column with a missing
value, and compute per asset the distance of the last close from the last
50-day rolling mean, the annualized volatility of the daily returns, and
the beta against the SPY return series; a screener expression then filters
and sorts the resulting metrics frame.

Modelling conventions of this embedding:
  - a float cell is `Option ℚ`: `some q` is a finite value, `none` models
    a non-finite cell (missing data, NaN, or an infinity produced by a
    float division by zero); pandas comparisons involving NaN evaluate to
    False, which the `optGT` / `optLT` helpers reproduce;
  - volatility is carried as its square (`varS * 252 * 10000`), because
    the script value std * sqrt 252 * 100 is irrational; the square
    determines it uniquely and preserves order, zeroness and definedness;
  - the KeyError raised by data[benchmark] on a missing column and the
    IndexError raised by iloc[-1] on an empty frame are modelled as the
    `Except` errors of `runPipeline`.
-/

namespace Dashboard

/-- A price cell of the pandas frame: `some q` is a finite float value,
`none` a non-finite cell (missing datum, NaN or infinity). -/
abbrev Px := Option ℚ

/-- A raw price table: one entry per symbol column, in column order; each
column holds its cells in ascending date (row) order. -/
abbrev RawTable := List (String × List Px)

/-- Model of data.dropna(axis=1) (dashboard.py line 30): drop every column
that contains at least one missing cell. -/
def dropnaCols (t : RawTable) : RawTable :=
  t.filter (fun c => c.2.all Option.isSome)

/-- Column lookup data[name] (line 33); `none` models the KeyError pandas
raises when the column is absent. -/
def getCol (t : RawTable) (name : String) : Option (List Px) :=
  (t.find? (fun c => c.1 == name)).map (fun c => c.2)

/-- Arithmetic mean of a list of rationals. -/
def mean (xs : List ℚ) : ℚ := xs.sum / (xs.length : ℚ)

/-- One day-over-day return cell, cur / prev - 1; `none` when either cell
is non-finite or prev is zero (the float quotient is then non-finite). -/
def retCell (prev cur : Px) : Px :=
  match prev, cur with
  | some p, some c => if p = 0 then none else some (c / p - 1)
  | _, _ => none

/-- Model of pct_change() (lines 50 and 57): the first cell is NaN, every
later cell the return over the previous row. -/
def pctChangeS : List Px → List Px
  | [] => []
  | x :: xs => none :: List.zipWith retCell (x :: xs) xs

/-- Sample variance (ddof = 1) of a list of rationals; `none` when fewer
than two observations are available (pandas yields NaN there). -/
def sampleVar (xs : List ℚ) : Option ℚ :=
  if xs.length < 2 then none
  else some (((xs.map (fun x => (x - mean xs) ^ 2)).sum) / ((xs.length : ℚ) - 1))

/-- Model of Series.var() and of the variance under Series.std() (lines 53
and 64): NaN cells are skipped (skipna) and the ddof = 1 sample variance is
taken over the remaining values. -/
def varS (s : List Px) : Option ℚ := sampleVar s.reduceOption

/-- Pairwise-complete observations used by Series.cov: the positions where
both series hold a finite value. -/
def pairVals (x y : List Px) : List (ℚ × ℚ) :=
  (List.zip x y).filterMap (fun p =>
    match p with
    | (some a, some b) => some (a, b)
    | _ => none)

/-- Sample covariance (ddof = 1) of a list of pairs; `none` when fewer than
two pairs are available. -/
def sampleCov (ps : List (ℚ × ℚ)) : Option ℚ :=
  if ps.length < 2 then none
  else some (((ps.map (fun p =>
      (p.1 - mean (ps.map Prod.fst)) * (p.2 - mean (ps.map Prod.snd)))).sum) /
    ((ps.length : ℚ) - 1))

/-- Model of Series.cov(other) (line 63): sample covariance over the
pairwise-complete observations of the two aligned series. -/
def covS (x y : List Px) : Option ℚ := sampleCov (pairVals x y)

/-- Cell i of rolling(window=w).mean(): the mean of the w cells ending at
row i; NaN while fewer than w rows are available or when the window
contains a NaN (min_periods defaults to the window size). -/
def rollCell (w : Nat) (s : List Px) (i : Nat) : Px :=
  if i + 1 < w then none
  else
    let win := (s.take (i + 1)).drop (i + 1 - w)
    if win.all Option.isSome then some (mean win.reduceOption) else none

/-- Model of rolling(window=w).mean() (line 40), cell by cell. -/
def rollingMean (w : Nat) (s : List Px) : List Px :=
  (List.range s.length).map (rollCell w s)

/-- Value of iloc[-1] on a series: its last cell, `none` when empty. -/
def lastPx (s : List Px) : Px := s.getLast?.join

/-- One trend-distance cell, ((price - sma) / sma) * 100 (line 46); `none`
when either operand is non-finite or sma is zero (float division by
zero). -/
def distCell (price sma : Px) : Px :=
  match price, sma with
  | some p, some m => if m = 0 then none else some ((p - m) / m * 100)
  | _, _ => none

/-- Trend distance of one column (lines 40-46): distance of the last close
from the last cell of the 50-day rolling mean. -/
def distOf (s : List Px) : Option ℚ :=
  distCell (lastPx s) (lastPx (rollingMean 50 s))

/-- Squared annualized volatility of one column.  The script computes
daily_returns.std() * sqrt 252 * 100 (line 53); as sqrt 252 is irrational
this embedding carries the square of that value, variance * 252 * 10000. -/
def volSqOf (s : List Px) : Option ℚ :=
  (varS (pctChangeS s)).map (fun v => v * 252 * 10000)

/-- Float division lifted to cells: `none` when the denominator is zero
(the float quotient is then NaN or infinite, hence non-finite) or when
either operand is non-finite. -/
def optDivF (a b : Option ℚ) : Option ℚ :=
  match a, b with
  | some x, some y => if y = 0 then none else some (x / y)
  | _, _ => none

/-- Beta of one column against the benchmark column (lines 63-65):
covariance of the two return series over the variance of the benchmark
returns, by unguarded float division. -/
def betaOf (s spy : List Px) : Option ℚ :=
  optDivF (covS (pctChangeS s) (pctChangeS spy)) (varS (pctChangeS spy))

/-- One row of the metrics DataFrame (lines 69-74). -/
structure MetricsRec where
  ticker : String
  distSMA : Option ℚ
  volSq : Option ℚ
  beta : Option ℚ
  deriving DecidableEq

/-- Metrics record of one non-benchmark column (lines 40-74). -/
def mkRec (spy : List Px) (c : String × List Px) : MetricsRec :=
  { ticker := c.1, distSMA := distOf c.2, volSq := volSqOf c.2,
    beta := betaOf c.2 spy }

/-- Failure modes of a script run: the KeyError from data[benchmark] when
the benchmark column is gone after cleaning, and the IndexError from
iloc[-1] on a table with no rows. -/
inductive PipeError where
  | missingBenchmark : PipeError
  | emptyData : PipeError
  deriving DecidableEq

/-- The script pipeline (lines 30-74): clean with dropna(axis=1), extract
the SPY benchmark column (KeyError when it is absent), drop it from the
asset set, and build one metrics record per remaining column. -/
def runPipeline (raw : RawTable) : Except PipeError (List MetricsRec) :=
  match getCol (dropnaCols raw) "SPY" with
  | none => Except.error PipeError.missingBenchmark
  | some spy =>
      if spy.length = 0 then Except.error PipeError.emptyData
      else Except.ok (((dropnaCols raw).filter
        (fun c => !(c.1 == "SPY"))).map (mkRec spy))

/-- Strict greater-than of a cell against a threshold, as pandas evaluates
it: a NaN cell compares as False. -/
def optGT (x : Option ℚ) (a : ℚ) : Bool :=
  match x with
  | some q => decide (a < q)
  | none => false

/-- Strict less-than of a cell against a threshold; NaN compares as
False. -/
def optLT (x : Option ℚ) (a : ℚ) : Bool :=
  match x with
  | some q => decide (q < a)
  | none => false

/-- The screener filter of line 137: Distance_SMA above the trend floor
and Volatility below the volatility ceiling.  On the squared volatility
scale of this embedding the ceiling is the square of the script value. -/
def screenPred (floor ceiling : ℚ) (r : MetricsRec) : Bool :=
  optGT r.distSMA floor && optLT r.volSq ceiling

/-- Boolean form of the column order used by
sort_values(by=Distance_SMA, ascending=False): record a may precede record
b when its distance is at least that of b; NaN distances sort last. -/
def keyLe (a b : MetricsRec) : Bool :=
  match a.distSMA, b.distSMA with
  | some x, some y => decide (y ≤ x)
  | some _, none => true
  | none, some _ => false
  | none, none => true

/-- Propositional form of the descending sort order on metrics records. -/
def distGe (a b : MetricsRec) : Prop := keyLe a b = true

instance : DecidableRel distGe :=
  fun a b => inferInstanceAs (Decidable (keyLe a b = true))

instance : IsTotal MetricsRec distGe where
  total := by
    intro a b
    unfold distGe keyLe
    cases a.distSMA <;> cases b.distSMA <;> simp
    exact le_total _ _

instance : IsTrans MetricsRec distGe where
  trans := by
    intro a b c
    unfold distGe keyLe
    cases a.distSMA <;> cases b.distSMA <;> cases c.distSMA <;> simp
    exact fun h h2 => le_trans h2 h

/-- The screener expression of line 137 with the two thresholds as
parameters: filter the metrics rows, sort them descending by trend
distance, keep the first five.  The script instantiates the trend floor
with 5 and the volatility ceiling with 25 (625 on the squared scale). -/
def screenerExpr (m : List MetricsRec) (floor ceiling : ℚ) : List MetricsRec :=
  ((m.filter (screenPred floor ceiling)).insertionSort distGe).take 5

/-- Bullishness test of the breadth panel (line 84): Distance_SMA > 0,
with NaN counting as not bullish. -/
def isBullish (d : Option ℚ) : Bool := optGT d 0

/-- Spec formula for the returns series: day-over-day fractional change,
(cur - prev) / prev, one value per consecutive row pair, first value
dropped, so its length is the price series length minus one. -/
def returnsSpec (ps : List ℚ) : List ℚ :=
  List.zipWith (fun prev cur => (cur - prev) / prev) ps ps.tail

/-- Spec formula for trend distance: (last_close - last_sma) / last_sma *
100, where last_sma is the mean of the 50 most recent closes including the
current day; undefined below 50 observations, and when last_sma is zero
the division is undefined as well. -/
def trendDistSpec (ps : List ℚ) : Option ℚ :=
  if ps.length < 50 then none
  else
    match ps.getLast? with
    | none => none
    | some c =>
        let m := mean (ps.drop (ps.length - 50))
        if m = 0 then none else some ((c - m) / m * 100)

/-- Spec formula for the squared volatility: sample variance of the full
returns series, annualized by 252 and scaled by 100 squared; this is the
square of sample std times sqrt 252 times 100. -/
def volSqSpec (ps : List ℚ) : Option ℚ :=
  (sampleVar (returnsSpec ps)).map (fun v => v * 252 * 10000)

/-- Concrete table for the zero-variance-benchmark scenario: one varying
asset column and a constant SPY column. -/
def degenEx : RawTable :=
  [("A", [some 1, some 2, some 4, some 3]),
   ("SPY", [some 5, some 5, some 5, some 5])]

/-- Concrete table with only 30 rows of history, below the 50-day trend
window, with dense columns. -/
def shortEx : RawTable :=
  [("A", List.replicate 30 (some 7)),
   ("SPY", List.replicate 30 (some 5))]

/-- Concrete benchmark column with non-zero return variance. -/
def spyTwin : List Px := [some 1, some 2, some 1, some 2, some 1]

/-- Concrete table whose asset column B is identical to the SPY column. -/
def twinEx : RawTable := [("B", spyTwin), ("SPY", spyTwin)]

/-- Concrete table whose SPY column has a missing cell and is dropped by
the cleaner. -/
def noSpyEx : RawTable :=
  [("SPY", [some 1, none]), ("A", [some 1, some 2])]

/-- Concrete ragged table for the cleaner claims: column A has a missing
cell, column B is dense. -/
def raggedEx : RawTable :=
  [("A", [some 1, none]), ("B", [some 2, some 3])]

end Dashboard

namespace Dashboard

/-! Helper lemmas shared between the claims. -/

/-- Float division by a zero denominator cell is non-finite. -/
theorem optDivF_zero (a : Option ℚ) : optDivF a (some 0) = none := by
  cases a <;> simp [optDivF]

/-- A strict greater-than against a NaN cell is False. -/
theorem optGT_none (a : ℚ) : optGT none a = false := rfl

/-- Dropping the non-finite cells of a fully finite series returns its
values. -/
theorem reduceOption_map_some (l : List ℚ) : (l.map some).reduceOption = l := by
  induction l with
  | nil => rfl
  | cons x xs ih => simp [ih]

/-- A fully finite series passes the isSome test of every cell. -/
theorem all_isSome_map_some (l : List ℚ) :
    (l.map some).all Option.isSome = true := by
  induction l with
  | nil => rfl
  | cons x xs ih => simp [ih]

/-- Claim C7: the cleaner drops exactly the columns that contain at least
one missing cell, every surviving column has zero missing entries, and
cleaning is idempotent. -/
theorem dropna_exact_and_idempotent (t : RawTable) :
    (∀ c : String × List Px,
      c ∈ dropnaCols t ↔ c ∈ t ∧ ∀ x ∈ c.2, x ≠ none) ∧
    (∀ c ∈ dropnaCols t, ∀ x ∈ c.2, x ≠ none) ∧
    dropnaCols (dropnaCols t) = dropnaCols t := by
  have hmem : ∀ c : String × List Px,
      c ∈ dropnaCols t ↔ c ∈ t ∧ ∀ x ∈ c.2, x ≠ none := by
    intro c
    rw [dropnaCols, List.mem_filter, List.all_eq_true]
    simp [Option.isSome_iff_ne_none]
  refine ⟨hmem, fun c hc => ((hmem c).mp hc).2, ?_⟩
  rw [dropnaCols, List.filter_eq_self]
  intro c hc
  rw [dropnaCols] at hc
  exact (List.mem_filter.mp hc).2

/-- Claim C7 witness: the idempotence conclusion on the concrete ragged
table. -/
theorem dropna_exact_and_idempotent_witness :
    dropnaCols (dropnaCols raggedEx) = dropnaCols raggedEx :=
  (dropna_exact_and_idempotent raggedEx).2.2

/-- Claim C10: the cleaner only removes whole columns: the surviving
columns are a sublist of the input columns (so each survivor keeps its
name and its full cell sequence in row order, and the relative column
order is unchanged), and on a table whose columns all have n rows every
surviving column still has n rows. -/
theorem dropna_column_only (t : RawTable) (n : Nat)
    (h : ∀ c ∈ t, c.2.length = n) :
    (dropnaCols t).Sublist t ∧ ∀ c ∈ dropnaCols t, c.2.length = n := by
  refine ⟨List.filter_sublist t, fun c hc => h c ?_⟩
  exact (List.filter_sublist t).subset hc

/-- Claim C10 witness: the sublist conclusion on the concrete ragged
table. -/
theorem dropna_column_only_witness : (dropnaCols raggedEx).Sublist raggedEx :=
  (dropna_column_only raggedEx 2 (by decide)).1

/-- Claim C8: when the benchmark column is absent after cleaning, the run
aborts with the missing-benchmark error (the KeyError of data[benchmark])
and no metrics are produced. -/
theorem missing_benchmark_aborts (t : RawTable)
    (h : getCol (dropnaCols t) "SPY" = none) :
    runPipeline t = Except.error PipeError.missingBenchmark := by
  rw [runPipeline, h]

/-- Claim C8 witness: the pipeline aborts on the concrete table whose SPY
column has a missing cell. -/
theorem missing_benchmark_aborts_witness :
    runPipeline noSpyEx = Except.error PipeError.missingBenchmark :=
  missing_benchmark_aborts noSpyEx (by decide)

/-- Claim C6: for every metrics table and every threshold pair, the
screener output has at most five records, is sorted descending by trend
distance, every output record satisfies both threshold predicates, and the
output is the five-record prefix of a descending sort of exactly the
records satisfying the predicates. -/
theorem screener_spec (m : List MetricsRec) (floor ceiling : ℚ) :
    (screenerExpr m floor ceiling).length ≤ 5 ∧
    List.Sorted distGe (screenerExpr m floor ceiling) ∧
    (∀ r ∈ screenerExpr m floor ceiling, screenPred floor ceiling r = true) ∧
    ∃ l, l.Perm (m.filter (screenPred floor ceiling)) ∧ List.Sorted distGe l ∧
      screenerExpr m floor ceiling = l.take 5 := by
  refine ⟨List.length_take_le 5 _, ?_, ?_, ?_⟩
  · exact List.Pairwise.sublist (List.take_sublist 5 _)
      (List.sorted_insertionSort distGe _)
  · intro r hr
    have hr2 : r ∈ (m.filter (screenPred floor ceiling)).insertionSort distGe :=
      List.mem_of_mem_take hr
    have hr3 : r ∈ m.filter (screenPred floor ceiling) :=
      (List.perm_insertionSort distGe _).mem_iff.mp hr2
    exact List.of_mem_filter hr3
  · exact ⟨(m.filter (screenPred floor ceiling)).insertionSort distGe,
      List.perm_insertionSort distGe _, List.sorted_insertionSort distGe _, rfl⟩

/-- Claim C6 witness: the length bound on a concrete one-record metrics
table and the script thresholds. -/
theorem screener_spec_witness :
    (screenerExpr [⟨"A", some 10, some 100, some 1⟩] 5 625).length ≤ 5 :=
  (screener_spec [⟨"A", some 10, some 100, some 1⟩] 5 625).1

/-- Last cell of a fully finite series is its last value. -/
theorem lastPx_map_some (ps : List ℚ) :
    lastPx (ps.map some) = ps.getLast? := by
  rw [lastPx, List.getLast?_map]
  cases ps.getLast? <;> rfl

/-- Every rolling-mean cell of a series shorter than the window is NaN. -/
theorem rollingMean_short (s : List Px) (h : s.length < 50) :
    ∀ x ∈ rollingMean 50 s, x = none := by
  intro x hx
  rw [rollingMean] at hx
  rcases List.mem_map.mp hx with ⟨i, hi, rfl⟩
  have hilt : i < s.length := List.mem_range.mp hi
  have h2 : i + 1 < 50 := by omega
  simp [rollCell, h2]

/-- Last cell of a series whose cells are all NaN is NaN. -/
theorem lastPx_of_all_none (s : List Px) (h : ∀ x ∈ s, x = none) :
    lastPx s = none := by
  rw [lastPx]
  cases hs : s.getLast? with
  | none => rfl
  | some x =>
      rcases List.getLast?_eq_some_iff.mp hs with ⟨ys, rfl⟩
      have hx : x = none := h x (by simp)
      rw [hx]
      rfl

/-- Trend distance of a column with fewer than 50 rows is NaN. -/
theorem distOf_short (s : List Px) (h : s.length < 50) : distOf s = none := by
  rw [distOf, lastPx_of_all_none _ (rollingMean_short s h)]
  cases lastPx s <;> rfl

/-- Last rolling-mean cell of a fully finite series with at least 50 rows:
the mean of the 50 most recent values. -/
theorem lastPx_rollingMean_dense (ps : List ℚ) (h : 50 ≤ ps.length) :
    lastPx (rollingMean 50 (ps.map some)) =
      some (mean (ps.drop (ps.length - 50))) := by
  have hidx : ps.length - 1 < ps.length := by omega
  have hsucc : ps.length - 1 + 1 = ps.length := by omega
  have hcell : rollCell 50 (ps.map some) (ps.length - 1) =
      some (mean (ps.drop (ps.length - 50))) := by
    rw [rollCell, hsucc, if_neg (by omega : ¬ ps.length < 50)]
    have htake : (ps.map some).take ps.length = ps.map some := by
      conv in List.take ps.length _ => rw [← List.length_map ps some]
      exact List.take_length _
    rw [htake, ← List.map_drop, if_pos (all_isSome_map_some _),
      reduceOption_map_some]
  have hlen : (rollingMean 50 (ps.map some)).length = ps.length := by
    rw [rollingMean, List.length_map, List.length_range, List.length_map]
  rw [lastPx, List.getLast?_eq_getElem?, hlen, rollingMean, List.length_map,
    List.getElem?_map, List.getElem?_range hidx]
  simp [hcell]

/-- Trend distance of a fully finite column with at least 50 rows matches
the closed spec formula. -/
theorem distOf_dense (ps : List ℚ) (h : 50 ≤ ps.length) :
    distOf (ps.map some) = trendDistSpec ps := by
  have hne : ps ≠ [] := by
    intro h0
    rw [h0] at h
    simp at h
  rw [distOf, lastPx_map_some, lastPx_rollingMean_dense ps h, trendDistSpec,
    if_neg (by omega : ¬ ps.length < 50)]
  cases hlast : ps.getLast? with
  | none => exact absurd (List.getLast?_eq_none_iff.mp hlast) hne
  | some c => rfl

/-- Claim C3: on a fully finite column with at least 50 rows, the trend
distance computed by the script through the last rolling-mean cell equals
the spec formula (last_close - last_sma) / last_sma * 100, where last_sma
is the mean of the 50 most recent closes including the current day. -/
theorem trend_distance_refines_spec (ps : List ℚ) (h : 50 ≤ ps.length) :
    distOf (ps.map some) = trendDistSpec ps :=
  distOf_dense ps h

/-- Claim C3 witness: the refinement at a concrete 50-row price column. -/
theorem trend_distance_refines_spec_witness :
    distOf ((List.replicate 50 (2:ℚ)).map some) =
      trendDistSpec (List.replicate 50 (2:ℚ)) :=
  trend_distance_refines_spec (List.replicate 50 (2:ℚ)) (by decide)

/-- Mean of the trailing 50-row window of a positive price series is
positive. -/
theorem mean_window_pos (ps : List ℚ) (h : 50 ≤ ps.length)
    (hpos : ∀ p ∈ ps, 0 < p) : 0 < mean (ps.drop (ps.length - 50)) := by
  have hlen : (ps.drop (ps.length - 50)).length = 50 := by
    rw [List.length_drop]
    omega
  have hne : ps.drop (ps.length - 50) ≠ [] := by
    intro h0
    rw [h0] at hlen
    simp at hlen
  have hsum : 0 < (ps.drop (ps.length - 50)).sum :=
    List.sum_pos _ (fun x hx => hpos x (List.mem_of_mem_drop hx)) hne
  have hl : (0:ℚ) < ((ps.drop (ps.length - 50)).length : ℚ) := by
    rw [hlen]
    norm_num
  exact div_pos hsum hl

/-- Claim C9: on a fully finite positive column with at least 50 rows, the
sign of the trend distance matches the comparison of the last close with
the last 50-row mean exactly; equal values give distance 0, which the
strict bullishness test of the script classifies as not bullish. -/
theorem trend_sign_matches (ps : List ℚ) (h50 : 50 ≤ ps.length)
    (hpos : ∀ p ∈ ps, 0 < p) :
    (optGT (distOf (ps.map some)) 0 = true ↔
      mean (ps.drop (ps.length - 50)) < ps.getLastD 0) ∧
    (optLT (distOf (ps.map some)) 0 = true ↔
      ps.getLastD 0 < mean (ps.drop (ps.length - 50))) ∧
    (ps.getLastD 0 = mean (ps.drop (ps.length - 50)) →
      distOf (ps.map some) = some 0 ∧
      isBullish (distOf (ps.map some)) = false) := by
  have hne : ps ≠ [] := by
    intro h0
    rw [h0] at h50
    simp at h50
  obtain ⟨c, hc⟩ : ∃ c, ps.getLast? = some c := by
    cases hlast : ps.getLast? with
    | none => exact absurd (List.getLast?_eq_none_iff.mp hlast) hne
    | some c => exact ⟨c, rfl⟩
  have hm : 0 < mean (ps.drop (ps.length - 50)) := mean_window_pos ps h50 hpos
  have hcd : ps.getLastD 0 = c := by
    rw [List.getLastD_eq_getLast?, hc]
    rfl
  have hdist : distOf (ps.map some) =
      some ((c - mean (ps.drop (ps.length - 50))) /
        mean (ps.drop (ps.length - 50)) * 100) := by
    rw [distOf_dense ps h50, trendDistSpec,
      if_neg (by omega : ¬ ps.length < 50), hc]
    exact if_neg (ne_of_gt hm)
  have key_pos : ∀ x : ℚ,
      0 < x / mean (ps.drop (ps.length - 50)) * 100 ↔ 0 < x := by
    intro x
    rw [div_mul_eq_mul_div, div_pos_iff]
    constructor
    · rintro (⟨h1, _⟩ | ⟨_, h2⟩)
      · linarith
      · linarith
    · intro hx
      exact Or.inl ⟨by linarith, hm⟩
  have key_neg : ∀ x : ℚ,
      x / mean (ps.drop (ps.length - 50)) * 100 < 0 ↔ x < 0 := by
    intro x
    rw [div_mul_eq_mul_div, div_neg_iff]
    constructor
    · rintro (⟨_, h2⟩ | ⟨h1, _⟩)
      · linarith
      · linarith
    · intro hx
      exact Or.inr ⟨by linarith, hm⟩
  refine ⟨?_, ?_, ?_⟩
  · rw [hdist, hcd, optGT, decide_eq_true_iff, key_pos]
    constructor
    · intro hlt
      linarith
    · intro hlt
      linarith
  · rw [hdist, hcd, optLT, decide_eq_true_iff, key_neg]
    constructor
    · intro hlt
      linarith
    · intro hlt
      linarith
  · intro heq
    rw [hcd] at heq
    rw [hdist, heq, sub_self, zero_div, zero_mul]
    exact ⟨rfl, rfl⟩

/-- Claim C9 witness: the boundary case on a concrete constant 50-row
column, where the last close equals the 50-row mean: the distance is zero
and the asset is classified as not bullish. -/
theorem trend_sign_matches_witness :
    distOf ((List.replicate 50 (1:ℚ)).map some) = some 0 ∧
    isBullish (distOf ((List.replicate 50 (1:ℚ)).map some)) = false :=
  (trend_sign_matches (List.replicate 50 (1:ℚ)) (by decide)
    (by decide)).2.2
    (by norm_num [mean, List.replicate, List.getLastD])

/-- Return cells over two fully finite series with nowhere-zero previous
prices are the finite spec returns. -/
theorem zipWith_retCell_map_some (a b : List ℚ) (h0 : ∀ p ∈ a, p ≠ 0) :
    List.zipWith retCell (a.map some) (b.map some) =
      (List.zipWith (fun prev cur => (cur - prev) / prev) a b).map some := by
  induction a generalizing b with
  | nil => simp
  | cons p a ih =>
      cases b with
      | nil => simp
      | cons c b =>
          have hp : p ≠ 0 := h0 p (List.mem_cons_self p a)
          have hrest : ∀ q ∈ a, q ≠ 0 := fun q hq => h0 q (List.mem_cons_of_mem p hq)
          simp only [List.map_cons, List.zipWith_cons_cons, ih b hrest]
          rw [retCell, if_neg hp]
          congr 2
          field_simp

/-- The pct_change cells of a fully finite, nowhere-zero price series are
the leading NaN followed by the finite spec returns. -/
theorem pctChangeS_map_some (ps : List ℚ) (hne : ps ≠ [])
    (h0 : ∀ p ∈ ps, p ≠ 0) :
    pctChangeS (ps.map some) = none :: (returnsSpec ps).map some := by
  cases ps with
  | nil => exact absurd rfl hne
  | cons x xs =>
      show none :: List.zipWith retCell ((x :: xs).map some) (xs.map some) =
        none :: (returnsSpec (x :: xs)).map some
      rw [returnsSpec, zipWith_retCell_map_some (x :: xs) xs h0]
      simp only [List.tail_cons]

/-- Skipping the NaNs of the pct_change series of a fully finite,
nowhere-zero price series leaves exactly the n - 1 spec returns, so the
skipna sample variance of the script is the sample variance of the spec
returns. -/
theorem varS_pctChange (ps : List ℚ) (hne : ps ≠ []) (h0 : ∀ p ∈ ps, p ≠ 0) :
    varS (pctChangeS (ps.map some)) = sampleVar (returnsSpec ps) := by
  rw [pctChangeS_map_some ps hne h0, varS, List.reduceOption_cons_of_none,
    reduceOption_map_some]

/-- Claim C4: on a fully finite, nowhere-zero column with at least 2 rows,
the squared volatility computed by the script (std of pct_change, skipna,
ddof 1, scaled by sqrt 252 and 100) equals the spec formula: the sample
variance of the full day-over-day fractional return series of length n - 1
(first undefined value dropped), annualized by 252 and scaled by 100
squared. -/
theorem volatility_refines_spec (ps : List ℚ) (h2 : 2 ≤ ps.length)
    (h0 : ∀ p ∈ ps, p ≠ 0) :
    volSqOf (ps.map some) = volSqSpec ps := by
  have hne : ps ≠ [] := by
    intro h
    rw [h] at h2
    simp at h2
  rw [volSqOf, varS_pctChange ps hne h0, volSqSpec]

/-- Claim C4 witness: the refinement at a concrete three-row column. -/
theorem volatility_refines_spec_witness :
    volSqOf (([1, 2, 4] : List ℚ).map some) = volSqSpec [1, 2, 4] :=
  volatility_refines_spec [1, 2, 4] (by decide) (by norm_num)

/-- The pairwise-complete observations of a series with itself are its
finite values, doubled. -/
theorem pairVals_self (s : List Px) :
    pairVals s s = s.reduceOption.map (fun a => (a, a)) := by
  induction s with
  | nil => rfl
  | cons x xs ih =>
      cases x with
      | none =>
          show pairVals xs xs = _
          rw [ih, List.reduceOption_cons_of_none]
      | some a =>
          show (a, a) :: pairVals xs xs = _
          rw [ih, List.reduceOption_cons_of_some, List.map_cons]

/-- Sample covariance of a series with itself is its sample variance. -/
theorem covS_self (s : List Px) : covS s s = varS s := by
  rw [covS, pairVals_self, varS]
  have hfst : (s.reduceOption.map (fun a => (a, a))).map Prod.fst =
      s.reduceOption := by
    rw [List.map_map]
    exact (List.map_congr_left (fun a _ => rfl)).trans (List.map_id _)
  have hsnd : (s.reduceOption.map (fun a => (a, a))).map Prod.snd =
      s.reduceOption := by
    rw [List.map_map]
    exact (List.map_congr_left (fun a _ => rfl)).trans (List.map_id _)
  rw [sampleCov, sampleVar, hfst, hsnd, List.length_map, List.map_map]
  rcases lt_or_le s.reduceOption.length 2 with h | h
  · rw [if_pos h, if_pos h]
  · rw [if_neg (not_lt.mpr h), if_neg (not_lt.mpr h)]
    congr 2
    refine congrArg List.sum (List.map_congr_left ?_)
    intro a _
    simp [Function.comp, pow_two]

/-- Beta of a series against itself is 1 when its return variance is a
non-zero finite value. -/
theorem betaOf_self (s : List Px) (v : ℚ) (hvar : varS (pctChangeS s) = some v)
    (hv : v ≠ 0) : betaOf s s = some 1 := by
  rw [betaOf, covS_self, hvar]
  simp [optDivF, hv, div_self]

/-- Inversion of a successful pipeline run: the metrics list is the map of
the per-column record builder over the cleaned non-benchmark columns. -/
theorem runPipeline_ok_inv (t : RawTable) (spy : List Px)
    (ms : List MetricsRec)
    (hspy : getCol (dropnaCols t) "SPY" = some spy)
    (hok : runPipeline t = Except.ok ms) :
    ms = ((dropnaCols t).filter (fun c => !(c.1 == "SPY"))).map (mkRec spy) := by
  have hok2 : (if spy.length = 0 then
      (Except.error PipeError.emptyData : Except PipeError (List MetricsRec))
    else Except.ok (((dropnaCols t).filter
      (fun c => !(c.1 == "SPY"))).map (mkRec spy))) = Except.ok ms := by
    rw [← hok, runPipeline, hspy]
  by_cases h0 : spy.length = 0
  · rw [if_pos h0] at hok2
    cases hok2
  · rw [if_neg h0] at hok2
    exact (Except.ok.inj hok2).symm

/-- Claim C5: when a cleaned table contains a non-benchmark asset column
whose cells are identical to the benchmark column, and the benchmark
return variance is a non-zero finite value, the metrics table of a
successful run contains the record of that asset with beta exactly 1 and
with the volatility value computed from the benchmark series itself (so
its volatility equals the benchmark volatility). -/
theorem benchmark_twin_beta_one (t : RawTable) (ms : List MetricsRec)
    (name : String) (spy : List Px) (v : ℚ)
    (hok : runPipeline t = Except.ok ms)
    (hspy : getCol (dropnaCols t) "SPY" = some spy)
    (hmem : (name, spy) ∈ dropnaCols t) (hname : name ≠ "SPY")
    (hvar : varS (pctChangeS spy) = some v) (hv : v ≠ 0) :
    (⟨name, distOf spy, volSqOf spy, some 1⟩ : MetricsRec) ∈ ms := by
  rw [runPipeline_ok_inv t spy ms hspy hok]
  have hmem2 : (name, spy) ∈ (dropnaCols t).filter (fun c => !(c.1 == "SPY")) :=
    List.mem_filter.mpr ⟨hmem, by simp [hname]⟩
  have hrec : mkRec spy (name, spy) =
      ⟨name, distOf spy, volSqOf spy, some 1⟩ := by
    show MetricsRec.mk name (distOf spy) (volSqOf spy) (betaOf spy spy) = _
    rw [betaOf_self spy v hvar hv]
  rw [← hrec]
  exact List.mem_map_of_mem (mkRec spy) hmem2

/-- Claim C5 witness: on the concrete twin table the record of asset B
carries beta 1 and the benchmark volatility value. -/
theorem benchmark_twin_beta_one_witness :
    (⟨"B", distOf spyTwin, volSqOf spyTwin, some 1⟩ : MetricsRec) ∈
      [mkRec spyTwin ("B", spyTwin)] := by
  have h := benchmark_twin_beta_one twinEx [mkRec spyTwin ("B", spyTwin)]
    "B" spyTwin (3/4) rfl rfl (by decide) (by decide)
    (by norm_num [spyTwin, varS, pctChangeS, retCell, sampleVar, mean])
    (by norm_num)
  exact h

/-- Claim C1 counterexample: on the concrete table with a constant
benchmark column the benchmark return variance is exactly zero, yet the
run completes normally and the degenerate beta is carried as the in-band
non-finite value none (the NaN of the unguarded float division cov / var)
inside the produced metrics record, consumed by the downstream sorting,
filtering and plotting; the computation is not failed for that asset and
the asset is not excluded or flagged, contrary to the claim. -/
theorem degenerate_beta_nan_counterexample :
    varS (pctChangeS [some 5, some 5, some 5, some 5]) = some 0 ∧
    runPipeline degenEx = Except.ok [⟨"A", none, some 1312500, none⟩] := by
  have hvar : varS (pctChangeS [some 5, some 5, some 5, some 5]) = some 0 := by
    norm_num [varS, pctChangeS, retCell, sampleVar, mean]
  refine ⟨hvar, ?_⟩
  have h1 : runPipeline degenEx = Except.ok
      [mkRec [some 5, some 5, some 5, some 5]
        ("A", [some 1, some 2, some 4, some 3])] := rfl
  rw [h1]
  have hdist : distOf [some 1, some 2, some 4, some 3] = none :=
    distOf_short _ (by decide)
  have hvol : volSqOf [some 1, some 2, some 4, some 3] = some 1312500 := by
    norm_num [volSqOf, varS, pctChangeS, retCell, sampleVar, mean]
  have hbeta : betaOf [some 1, some 2, some 4, some 3]
      [some 5, some 5, some 5, some 5] = none := by
    rw [betaOf, hvar, optDivF_zero]
  have hrec : mkRec [some 5, some 5, some 5, some 5]
      ("A", [some 1, some 2, some 4, some 3]) =
      (⟨"A", none, some 1312500, none⟩ : MetricsRec) := by
    show MetricsRec.mk "A" (distOf [some 1, some 2, some 4, some 3])
      (volSqOf [some 1, some 2, some 4, some 3])
      (betaOf [some 1, some 2, some 4, some 3]
        [some 5, some 5, some 5, some 5]) = _
    rw [hdist, hvol, hbeta]
  rw [hrec]

/-- Claim C1 amended: when the benchmark return variance is exactly zero
on a successful run, every metrics record carries beta = none (the NaN of
the unguarded division cov / var, modelled as the non-finite cell), and
any strict greater-than filter on that beta, such as the beta > 1.5
outlier test of the scatter panel, evaluates to False, so the NaN selects
nothing downstream. -/
theorem degenerate_beta_nan (t : RawTable) (ms : List MetricsRec)
    (spy : List Px)
    (hok : runPipeline t = Except.ok ms)
    (hspy : getCol (dropnaCols t) "SPY" = some spy)
    (hvar0 : varS (pctChangeS spy) = some 0) :
    ∀ r ∈ ms, r.beta = none ∧ ∀ x : ℚ, optGT r.beta x = false := by
  rw [runPipeline_ok_inv t spy ms hspy hok]
  intro r hr
  rcases List.mem_map.mp hr with ⟨c, _, rfl⟩
  have hbeta : (mkRec spy c).beta = none := by
    show betaOf c.2 spy = none
    rw [betaOf, hvar0, optDivF_zero]
  refine ⟨hbeta, fun x => ?_⟩
  rw [hbeta]
  rfl

/-- Claim C1 witness: the amended conclusion on the concrete
constant-benchmark table, at the outlier threshold 1.5 of the script. -/
theorem degenerate_beta_nan_witness :
    (mkRec [some 5, some 5, some 5, some 5]
      ("A", [some 1, some 2, some 4, some 3])).beta = none ∧
    optGT (mkRec [some 5, some 5, some 5, some 5]
      ("A", [some 1, some 2, some 4, some 3])).beta (3/2) = false := by
  have h := degenerate_beta_nan degenEx
    [mkRec [some 5, some 5, some 5, some 5]
      ("A", [some 1, some 2, some 4, some 3])]
    [some 5, some 5, some 5, some 5] rfl rfl
    (by norm_num [varS, pctChangeS, retCell, sampleVar, mean])
  have h2 := h _ (List.mem_singleton.mpr rfl)
  exact ⟨h2.1, h2.2 (3/2)⟩

/-- Claim C2 counterexample: on the concrete dense table with only 30 rows
of history the run completes normally and the asset is present in the
metrics table with its trend distance silently carried as the in-band NaN
value none; it is neither excluded from nor flagged in the metrics table,
contrary to the claim. -/
theorem short_history_counterexample :
    runPipeline shortEx = Except.ok [⟨"A", none, some 0, none⟩] := by
  have h1 : runPipeline shortEx = Except.ok
      [mkRec (List.replicate 30 (some 5))
        ("A", List.replicate 30 (some 7))] := rfl
  rw [h1]
  have hdist : distOf (List.replicate 30 (some (7:ℚ))) = none :=
    distOf_short _ (by decide)
  have hvol : volSqOf (List.replicate 30 (some (7:ℚ))) = some 0 := by
    norm_num [volSqOf, varS, pctChangeS, retCell, sampleVar, mean,
      List.replicate]
  have hvar : varS (pctChangeS (List.replicate 30 (some (5:ℚ)))) = some 0 := by
    norm_num [varS, pctChangeS, retCell, sampleVar, mean, List.replicate]
  have hbeta : betaOf (List.replicate 30 (some (7:ℚ)))
      (List.replicate 30 (some (5:ℚ))) = none := by
    rw [betaOf, hvar, optDivF_zero]
  have hrec : mkRec (List.replicate 30 (some 5))
      ("A", List.replicate 30 (some 7)) =
      (⟨"A", none, some 0, none⟩ : MetricsRec) := by
    show MetricsRec.mk "A" (distOf (List.replicate 30 (some (7:ℚ))))
      (volSqOf (List.replicate 30 (some (7:ℚ))))
      (betaOf (List.replicate 30 (some (7:ℚ)))
        (List.replicate 30 (some (5:ℚ)))) = _
    rw [hdist, hvol, hbeta]
  rw [hrec]

/-- Claim C2 amended: when every cleaned column has fewer than 50 rows,
every metrics record of a successful run carries trend distance none (the
NaN of the short rolling window), and for every threshold pair the
screener output is empty, because the NaN fails the strict greater-than
comparison with the trend floor; in particular no such asset is ever given
a default trend distance of 0 in the screener. -/
theorem short_history_nan_excluded (t : RawTable) (ms : List MetricsRec)
    (hok : runPipeline t = Except.ok ms)
    (hshort : ∀ c ∈ dropnaCols t, c.2.length < 50) :
    (∀ r ∈ ms, r.distSMA = none) ∧
    ∀ floor ceiling : ℚ, screenerExpr ms floor ceiling = [] := by
  cases hspy : getCol (dropnaCols t) "SPY" with
  | none =>
      rw [runPipeline, hspy] at hok
      cases hok
  | some spy =>
      have hms := runPipeline_ok_inv t spy ms hspy hok
      subst hms
      have hdist : ∀ r ∈ ((dropnaCols t).filter
          (fun c => !(c.1 == "SPY"))).map (mkRec spy), r.distSMA = none := by
        intro r hr
        rcases List.mem_map.mp hr with ⟨c, hc, rfl⟩
        have hc2 : c ∈ dropnaCols t := (List.filter_sublist _).subset hc
        show distOf c.2 = none
        exact distOf_short _ (hshort c hc2)
      refine ⟨hdist, fun floor ceiling => ?_⟩
      rw [screenerExpr, List.filter_eq_nil_iff.mpr ?hnil]
      case hnil =>
        intro r hr
        simp [screenPred, optGT, hdist r hr]
      rfl

/-- Claim C2 witness: the amended conclusion on the concrete 30-row table,
at the script thresholds 5 and 25 (625 on the squared volatility
scale). -/
theorem short_history_nan_excluded_witness :
    (mkRec (List.replicate 30 (some (5:ℚ)))
      ("A", List.replicate 30 (some 7))).distSMA = none ∧
    screenerExpr [mkRec (List.replicate 30 (some (5:ℚ)))
      ("A", List.replicate 30 (some 7))] 5 625 = [] := by
  have h := short_history_nan_excluded shortEx
    [mkRec (List.replicate 30 (some 5)) ("A", List.replicate 30 (some 7))]
    rfl (by decide)
  exact ⟨h.1 _ (List.mem_singleton.mpr rfl), h.2 5 625⟩

end Dashboard
